import Mathlib

/-!
Shallow embedding of the backtest simulation core of the `web-app-backtest`
repository, and proofs about it.

Source files embedded:
* `src/backend/src/models/Trade.ts` (`TradeCalculator`, trade records, metrics),
* `src/backend/src/models/BacktestSession.ts` (`BacktestSessionManager`:
  equity curve, max drawdown, consecutive streaks),
* `src/backend/src/services/tradeManager.ts` (`TradeManager`: the pending
  order / active position state machine),
* the `SimulationEngine.runBacktest` main loop (candle cursor and
  skip-on-NO_TRADE logic).

Conventions of the embedding:
* JavaScript numbers are modelled as exact rationals (`ℚ`); `Date` values and
  the millisecond results of `getTime()` are modelled as `Int` (milliseconds
  since epoch).  `Math.floor` on a quotient of integers is `Int.fdiv`.
* `Infinity` appears only as the profit-factor sentinel and is modelled by a
  dedicated constructor of `ProfitFactor`.
* The TypeScript class mutates its state in place; here every method is a
  function from the manager value to an updated manager value plus the
  returned result.
* Identifier generation in the source uses wall-clock time plus randomness
  (`Date.now()` + random suffix); ids are never inspected by any logic, so
  they are modelled by a deterministic counter `nextId` threaded through the
  state.
* Logging calls are side-effect free for the state and are dropped.
-/

namespace Backtest

/-- Order kinds of `PendingOrder.type` in `Trade.ts`. -/
inductive OrderType where
  | BUY_STOP
  | SELL_STOP
  | BUY_LIMIT
  | SELL_LIMIT
  deriving DecidableEq, Repr

/-- Order statuses of `PendingOrder.status` in `Trade.ts`. -/
inductive OrderStatus where
  | PENDING
  | EXECUTED
  | CANCELLED
  | EXPIRED
  deriving DecidableEq, Repr

/-- Position side (`'BUY' | 'SELL'`). -/
inductive PositionType where
  | BUY
  | SELL
  deriving DecidableEq, Repr

/-- Position status (`'OPEN' | 'CLOSED'`). -/
inductive PosStatus where
  | OPEN
  | CLOSED
  deriving DecidableEq, Repr

/-- Trade outcome status (`'WIN' | 'LOSS' | 'BREAKEVEN'`). -/
inductive TradeStatus where
  | WIN
  | LOSS
  | BREAKEVEN
  deriving DecidableEq, Repr

/-- Exit reasons produced by `TradeManager` closes
(`'TAKE_PROFIT' | 'STOP_LOSS' | 'MANUAL'`). -/
inductive ExitReason where
  | TAKE_PROFIT
  | STOP_LOSS
  | MANUAL
  deriving DecidableEq, Repr

/-- One OHLCV bar (`OHLCVCandle` in `Trade.ts`); the `time` string is always
consumed through `new Date(candle.time)`, so it is modelled directly as the
millisecond timestamp. -/
structure OHLCVCandle where
  time : Int
  open_ : ℚ
  high : ℚ
  low : ℚ
  close : ℚ
  tick_volume : ℚ
  real_volume : ℚ
  spread : ℚ
  deriving DecidableEq, Repr

/-- `PendingOrder` of `Trade.ts`. -/
structure PendingOrder where
  orderId : Nat
  type : OrderType
  price : ℚ
  stopLoss : ℚ
  takeProfit : ℚ
  lotSize : ℚ
  createdAt : Int
  expiresAt : Int
  status : OrderStatus
  analysisId : String
  deriving DecidableEq, Repr

/-- `ActivePosition` of `Trade.ts` (the optional close-time/exit-price/pnl
fields are never written by `TradeManager`, which emits a `Trade` record
instead, so they are omitted). -/
structure ActivePosition where
  positionId : Nat
  type : PositionType
  entryPrice : ℚ
  stopLoss : ℚ
  takeProfit : ℚ
  lotSize : ℚ
  openedAt : Int
  status : PosStatus
  analysisId : String
  deriving DecidableEq, Repr

/-- `Trade` of `Trade.ts`: the immutable record emitted when a position
closes. -/
structure Trade where
  tradeId : Nat
  sessionId : String
  type : PositionType
  entryPrice : ℚ
  exitPrice : ℚ
  stopLoss : ℚ
  takeProfit : ℚ
  lotSize : ℚ
  openedAt : Int
  closedAt : Int
  duration : Int
  pnl : ℚ
  pnlPercent : ℚ
  status : TradeStatus
  exitReason : ExitReason
  analysisId : String
  commission : ℚ
  swap : ℚ
  netPnl : ℚ
  deriving DecidableEq, Repr

namespace TradeCalculator

/-- `TradeCalculator.calculatePnL`: signed pip difference (pip = 0.0001)
times pip value times lot size.  The source's `pipValue` parameter defaults
to `1`; it is passed explicitly here. -/
def calculatePnL (type : PositionType) (entryPrice exitPrice lotSize pipValue : ℚ) : ℚ :=
  let pips : ℚ :=
    match type with
    | .BUY => (exitPrice - entryPrice) / 0.0001
    | .SELL => (entryPrice - exitPrice) / 0.0001
  pips * pipValue * lotSize

/-- `TradeCalculator.calculatePnLPercent`. -/
def calculatePnLPercent (pnl accountBalance : ℚ) : ℚ :=
  pnl / accountBalance * 100

/-- `TradeCalculator.determineTradeStatus`: outcome from the sign of the
(gross) P&L. -/
def determineTradeStatus (pnl : ℚ) : TradeStatus :=
  if pnl > 0 then .WIN
  else if pnl < 0 then .LOSS
  else .BREAKEVEN

/-- `TradeCalculator.calculateDuration`: whole minutes, floored
(`Math.floor((closedAt - openedAt) / 60000)`). -/
def calculateDuration (openedAt closedAt : Int) : Int :=
  Int.fdiv (closedAt - openedAt) (1000 * 60)

end TradeCalculator

/-- JavaScript's `Infinity` sentinel as it occurs in the profit-factor field:
either a finite rational or positive infinity. -/
inductive ProfitFactor where
  | finite (val : ℚ)
  | infinity
  deriving DecidableEq, Repr

/-- `TradeMetrics` of `Trade.ts`. -/
structure TradeMetrics where
  totalTrades : Nat
  winningTrades : Nat
  losingTrades : Nat
  winRate : ℚ
  profitFactor : ProfitFactor
  averageWin : ℚ
  averageLoss : ℚ
  largestWin : ℚ
  largestLoss : ℚ
  maxConsecutiveWins : Nat
  maxConsecutiveLosses : Nat
  averageTradeDuration : ℚ
  totalPnl : ℚ
  totalCommission : ℚ
  totalSwap : ℚ
  netPnl : ℚ
  deriving DecidableEq, Repr

/-- `Math.max(...xs)` over a nonempty list (`0` replaces the guarded
empty case, matching the source's `xs.length > 0 ? Math.max(...) : 0`). -/
def listMaxQ : List ℚ → ℚ
  | [] => 0
  | x :: xs => xs.foldl max x

/-- `Math.min(...xs)` analogue of `listMaxQ`. -/
def listMinQ : List ℚ → ℚ
  | [] => 0
  | x :: xs => xs.foldl min x

namespace TradeCalculator

/-- Loop body of the consecutive-streak `forEach` inside
`TradeCalculator.calculateMetrics`.  Accumulator:
`(maxConsecutiveWins, maxConsecutiveLosses, currentWinStreak,
currentLossStreak)`.  Note: the source's loop has no `else` branch, so a
BREAKEVEN trade leaves all four counters unchanged. -/
def metricsStreakStep (acc : Nat × Nat × Nat × Nat) (t : Trade) :
    Nat × Nat × Nat × Nat :=
  match t.status with
  | .WIN => (max acc.1 (acc.2.2.1 + 1), acc.2.1, acc.2.2.1 + 1, 0)
  | .LOSS => (acc.1, max acc.2.1 (acc.2.2.2 + 1), 0, acc.2.2.2 + 1)
  | .BREAKEVEN => acc

/-- `TradeCalculator.calculateMetrics`. -/
def calculateMetrics (trades : List Trade) : TradeMetrics :=
  if trades.length = 0 then
    { totalTrades := 0
      winningTrades := 0
      losingTrades := 0
      winRate := 0
      profitFactor := .finite 0
      averageWin := 0
      averageLoss := 0
      largestWin := 0
      largestLoss := 0
      maxConsecutiveWins := 0
      maxConsecutiveLosses := 0
      averageTradeDuration := 0
      totalPnl := 0
      totalCommission := 0
      totalSwap := 0
      netPnl := 0 }
  else
    let winningTrades := trades.filter (fun t => decide (t.status = .WIN))
    let losingTrades := trades.filter (fun t => decide (t.status = .LOSS))
    let totalPnl := (trades.map (·.pnl)).sum
    let totalCommission := (trades.map (·.commission)).sum
    let totalSwap := (trades.map (·.swap)).sum
    let netPnl := totalPnl - totalCommission - totalSwap
    let grossWin := (winningTrades.map (·.pnl)).sum
    let grossLoss := |(losingTrades.map (·.pnl)).sum|
    let profitFactor : ProfitFactor :=
      if grossLoss > 0 then .finite (grossWin / grossLoss)
      else if grossWin > 0 then .infinity
      else .finite 0
    let averageWin := if winningTrades.length > 0 then grossWin / winningTrades.length else 0
    let averageLoss := if losingTrades.length > 0 then grossLoss / losingTrades.length else 0
    let largestWin := listMaxQ (winningTrades.map (·.pnl))
    let largestLoss := listMinQ (losingTrades.map (·.pnl))
    let averageTradeDuration :=
      (trades.map (fun t => (t.duration : ℚ))).sum / trades.length
    let streaks := trades.foldl metricsStreakStep (0, 0, 0, 0)
    { totalTrades := trades.length
      winningTrades := winningTrades.length
      losingTrades := losingTrades.length
      winRate := (winningTrades.length : ℚ) / trades.length * 100
      profitFactor := profitFactor
      averageWin := averageWin
      averageLoss := averageLoss
      largestWin := largestWin
      largestLoss := largestLoss
      maxConsecutiveWins := streaks.1
      maxConsecutiveLosses := streaks.2.1
      averageTradeDuration := averageTradeDuration
      totalPnl := totalPnl
      totalCommission := totalCommission
      totalSwap := totalSwap
      netPnl := netPnl }

end TradeCalculator

/-- `EquityPoint` of `BacktestSession.ts`. -/
structure EquityPoint where
  timestamp : Int
  balance : ℚ
  equity : ℚ
  drawdown : ℚ
  drawdown_percent : ℚ
  deriving DecidableEq, Repr

namespace BacktestSessionManager

/-- `BacktestSessionManager.updateEquityCurve`, as a function of the
`equity_curve` list (the only session field it reads and writes).  The
source indexes `equity_curve[length - 1]`, which is well defined because
`createSession` seeds the curve with one initial point; an empty curve is
returned unchanged (the source would throw there). -/
def updateEquityCurve (curve : List EquityPoint) (trade : Trade) :
    List EquityPoint :=
  match curve.getLast? with
  | none => curve
  | some lastPoint =>
    let newBalance := lastPoint.balance + trade.netPnl
    let peak := listMaxQ (curve.map (·.balance))
    let drawdown := peak - newBalance
    let drawdownPercent := if peak > 0 then drawdown / peak * 100 else 0
    curve ++ [{ timestamp := trade.closedAt
                balance := newBalance
                equity := newBalance
                drawdown := drawdown
                drawdown_percent := drawdownPercent }]

/-- Loop body of `BacktestSessionManager.calculateMaxDrawdown`.
Accumulator: `(maxDrawdown, peak)`. -/
def maxDrawdownStep (acc : ℚ × ℚ) (point : EquityPoint) : ℚ × ℚ :=
  let peak := if point.balance > acc.2 then point.balance else acc.2
  let drawdown := if peak > 0 then (peak - point.balance) / peak * 100 else 0
  (max acc.1 drawdown, peak)

/-- `BacktestSessionManager.calculateMaxDrawdown`. -/
def calculateMaxDrawdown (equityCurve : List EquityPoint) : ℚ :=
  match equityCurve with
  | [] => 0
  | first :: _ => (equityCurve.foldl maxDrawdownStep (0, first.balance)).1

/-- Loop body of `BacktestSessionManager.calculateConsecutiveWinsLosses`.
Accumulator: `(maxWins, maxLosses, currentWins, currentLosses)`; unlike
`metricsStreakStep`, the `else` branch resets both running streaks on a
BREAKEVEN trade. -/
def consecutiveStep (acc : Nat × Nat × Nat × Nat) (t : Trade) :
    Nat × Nat × Nat × Nat :=
  match t.status with
  | .WIN => (max acc.1 (acc.2.2.1 + 1), acc.2.1, acc.2.2.1 + 1, 0)
  | .LOSS => (acc.1, max acc.2.1 (acc.2.2.2 + 1), 0, acc.2.2.2 + 1)
  | .BREAKEVEN => (acc.1, acc.2.1, 0, 0)

/-- `BacktestSessionManager.calculateConsecutiveWinsLosses`: returns
`(maxWins, maxLosses)`. -/
def calculateConsecutiveWinsLosses (trades : List Trade) : Nat × Nat :=
  let r := trades.foldl consecutiveStep (0, 0, 0, 0)
  (r.1, r.2.1)

end BacktestSessionManager

/-- Result type `OrderExecutionResult` of `tradeManager.ts` (the `trade`
field is always `undefined` there and is omitted). -/
structure OrderExecutionResult where
  executed : Bool
  error : Option String
  deriving DecidableEq, Repr

/-- Result type `PositionUpdateResult` of `tradeManager.ts`. -/
structure PositionUpdateResult where
  closed : Bool
  trade : Option Trade
  reason : Option ExitReason
  deriving DecidableEq, Repr

/-- The `TradeManager` class: its `state` record (`TradeManagerState`)
together with the constructor-set readonly fields and the deterministic id
counter (see the file header note on id generation). -/
structure TradeManager where
  sessionId : String
  symbol : String
  orderExpiryMinutes : Int
  pendingOrders : List PendingOrder
  activePosition : Option ActivePosition
  balance : ℚ
  equity : ℚ
  margin : ℚ
  freeMargin : ℚ
  nextId : Nat
  deriving Repr

namespace TradeManager

/-- The `TradeManager` constructor. -/
def mkNew (sessionId symbol : String) (initialBalance : ℚ)
    (orderExpiryMinutes : Int) : TradeManager :=
  { sessionId := sessionId
    symbol := symbol
    orderExpiryMinutes := orderExpiryMinutes
    pendingOrders := []
    activePosition := none
    balance := initialBalance
    equity := initialBalance
    margin := 0
    freeMargin := initialBalance
    nextId := 0 }

/-- `TradeManager.addPendingOrder`; `DateUtils.addMinutes` adds
`minutes * 60000` milliseconds.  Returns the updated manager and the new
order's id. -/
def addPendingOrder (tm : TradeManager) (type : OrderType)
    (price stopLoss takeProfit lotSize : ℚ) (analysisId : String)
    (currentTime : Int) : TradeManager × Nat :=
  let orderId := tm.nextId
  let expiresAt := currentTime + tm.orderExpiryMinutes * 60000
  let order : PendingOrder :=
    { orderId := orderId
      type := type
      price := price
      stopLoss := stopLoss
      takeProfit := takeProfit
      lotSize := lotSize
      createdAt := currentTime
      expiresAt := expiresAt
      status := .PENDING
      analysisId := analysisId }
  ({ tm with pendingOrders := tm.pendingOrders ++ [order], nextId := tm.nextId + 1 },
   orderId)

/-- `TradeManager.updateMarginRequirement`: fixed 1:100 leverage over a
100000-unit contract. -/
def updateMarginRequirement (tm : TradeManager) : TradeManager :=
  match tm.activePosition with
  | some pos =>
    { tm with margin := pos.lotSize * 100000 * pos.entryPrice / 100 }
  | none => { tm with margin := 0 }

/-- `TradeManager.calculateCommission`: $7 per lot. -/
def calculateCommission (lotSize : ℚ) : ℚ :=
  lotSize * 7

/-- `TradeManager.calculateSwap`: per-day holding cost, accrued only once at
least 24 hours have elapsed; `-2` per lot per day for BUY, `+1` for SELL. -/
def calculateSwap (position : ActivePosition) (currentTime : Int) : ℚ :=
  let durationHours : ℚ := ((currentTime - position.openedAt : Int) : ℚ) / (1000 * 60 * 60)
  let swapPerLotPerDay : ℚ :=
    match position.type with
    | .BUY => -2
    | .SELL => 1
  if durationHours ≥ 24 then
    let days : Int := Int.floor (durationHours / 24)
    position.lotSize * swapPerLotPerDay * (days : ℚ)
  else 0

/-- `TradeManager.closePosition`: computes P&L, commission, swap and net
P&L, updates the balance, emits the `Trade` record, clears the position slot
and recomputes the margin. -/
def closePosition (tm : TradeManager) (position : ActivePosition)
    (exitPrice : ℚ) (currentTime : Int) (reason : ExitReason) :
    TradeManager × PositionUpdateResult :=
  let pnl := TradeCalculator.calculatePnL position.type position.entryPrice exitPrice
    position.lotSize 1
  let commission := calculateCommission position.lotSize
  let swap := calculateSwap position currentTime
  let netPnl := pnl - commission - swap
  let newBalance := tm.balance + netPnl
  let trade : Trade :=
    { tradeId := tm.nextId
      sessionId := tm.sessionId
      type := position.type
      entryPrice := position.entryPrice
      exitPrice := exitPrice
      stopLoss := position.stopLoss
      takeProfit := position.takeProfit
      lotSize := position.lotSize
      openedAt := position.openedAt
      closedAt := currentTime
      duration := TradeCalculator.calculateDuration position.openedAt currentTime
      pnl := pnl
      pnlPercent := TradeCalculator.calculatePnLPercent netPnl (newBalance - netPnl)
      status := TradeCalculator.determineTradeStatus pnl
      exitReason := reason
      analysisId := position.analysisId
      commission := commission
      swap := swap
      netPnl := netPnl }
  let tm' := updateMarginRequirement
    { tm with balance := newBalance, activePosition := none, nextId := tm.nextId + 1 }
  (tm', { closed := true, trade := some trade, reason := some reason })

/-- `TradeManager.updateActivePosition`: stop-loss is checked before
take-profit; the take-profit branch runs only when no stop-loss fired
(`if (!shouldClose)` in the source). -/
def updateActivePosition (tm : TradeManager) (position : ActivePosition)
    (candle : OHLCVCandle) (currentTime : Int) :
    TradeManager × Option PositionUpdateResult :=
  if position.type = .BUY ∧ candle.low ≤ position.stopLoss then
    let r := closePosition tm position position.stopLoss currentTime .STOP_LOSS
    (r.1, some r.2)
  else if position.type = .SELL ∧ candle.high ≥ position.stopLoss then
    let r := closePosition tm position position.stopLoss currentTime .STOP_LOSS
    (r.1, some r.2)
  else if position.type = .BUY ∧ candle.high ≥ position.takeProfit then
    let r := closePosition tm position position.takeProfit currentTime .TAKE_PROFIT
    (r.1, some r.2)
  else if position.type = .SELL ∧ candle.low ≤ position.takeProfit then
    let r := closePosition tm position position.takeProfit currentTime .TAKE_PROFIT
    (r.1, some r.2)
  else (tm, none)

/-- `TradeManager.executeOrder`: opens the active position at the order's
trigger price (`executionPrice = order.price` on every branch of the
source), marks the order EXECUTED and recomputes the margin. -/
def executeOrder (tm : TradeManager) (order : PendingOrder)
    (currentTime : Int) :
    TradeManager × PendingOrder × OrderExecutionResult :=
  let executionPrice := order.price
  let positionType : PositionType :=
    match order.type with
    | .BUY_STOP => .BUY
    | .BUY_LIMIT => .BUY
    | .SELL_STOP => .SELL
    | .SELL_LIMIT => .SELL
  let newPosition : ActivePosition :=
    { positionId := tm.nextId
      type := positionType
      entryPrice := executionPrice
      stopLoss := order.stopLoss
      takeProfit := order.takeProfit
      lotSize := order.lotSize
      openedAt := currentTime
      status := .OPEN
      analysisId := order.analysisId }
  let tm' := updateMarginRequirement
    { tm with activePosition := some newPosition, nextId := tm.nextId + 1 }
  (tm', { order with status := .EXECUTED }, { executed := true, error := none })

/-- The `shouldExecute` switch of `TradeManager.checkOrderExecution`:
BUY_STOP and SELL_LIMIT trigger when the candle high reaches the trigger
price, SELL_STOP and BUY_LIMIT when the candle low reaches it. -/
def shouldExecute (order : PendingOrder) (candle : OHLCVCandle) : Bool :=
  match order.type with
  | .BUY_STOP => decide (candle.high ≥ order.price)
  | .SELL_STOP => decide (candle.low ≤ order.price)
  | .BUY_LIMIT => decide (candle.low ≤ order.price)
  | .SELL_LIMIT => decide (candle.high ≥ order.price)

/-- `TradeManager.checkOrderExecution`: expiry is checked first, then the
single-position guard, then the per-kind trigger condition. -/
def checkOrderExecution (tm : TradeManager) (order : PendingOrder)
    (candle : OHLCVCandle) (currentTime : Int) :
    TradeManager × PendingOrder × OrderExecutionResult :=
  if currentTime ≥ order.expiresAt then
    (tm, { order with status := .EXPIRED },
     { executed := false, error := some "Order expired" })
  else if tm.activePosition.isSome then
    (tm, order, { executed := false, error := some "Active position exists" })
  else if shouldExecute order candle then executeOrder tm order currentTime
  else (tm, order, { executed := false, error := none })

/-- Step 1 of `TradeManager.updateWithCandle`: the `for (const order of
this.state.pendingOrders)` loop.  Orders are mutated in place in the source;
here the updated list is rebuilt positionally while the manager state is
threaded through.  Only results with `executed = true` are collected, as in
the source's `orderExecutions.push`. -/
def processOrders (tm : TradeManager) (orders : List PendingOrder)
    (candle : OHLCVCandle) (currentTime : Int) :
    TradeManager × List PendingOrder × List OrderExecutionResult :=
  match orders with
  | [] => (tm, [], [])
  | order :: rest =>
    if order.status = .PENDING then
      let c := checkOrderExecution tm order candle currentTime
      let r := processOrders c.1 rest candle currentTime
      (r.1, c.2.1 :: r.2.1, if c.2.2.executed then c.2.2 :: r.2.2 else r.2.2)
    else
      let r := processOrders tm rest candle currentTime
      (r.1, order :: r.2.1, r.2.2)

/-- One order's transformation in
`TradeManager.cleanupExpiredOrders`. -/
def cleanupOrder (currentTime : Int) (order : PendingOrder) : PendingOrder :=
  if order.status = .PENDING ∧ currentTime ≥ order.expiresAt then
    { order with status := .EXPIRED }
  else order

/-- `TradeManager.cleanupExpiredOrders`. -/
def cleanupExpiredOrders (tm : TradeManager) (currentTime : Int) : TradeManager :=
  { tm with pendingOrders := tm.pendingOrders.map (cleanupOrder currentTime) }

/-- `TradeManager.updateEquityAndMargin`: equity = balance + unrealized P&L
of the open position at the candle close; free margin = equity − margin. -/
def updateEquityAndMargin (tm : TradeManager) (candle : OHLCVCandle) : TradeManager :=
  let unrealizedPnL : ℚ :=
    match tm.activePosition with
    | some pos => TradeCalculator.calculatePnL pos.type pos.entryPrice candle.close pos.lotSize 1
    | none => 0
  let equity := tm.balance + unrealizedPnL
  { tm with equity := equity, freeMargin := equity - tm.margin }

/-- Combined return value of `TradeManager.updateWithCandle`. -/
structure UpdateResult where
  orderExecutions : List OrderExecutionResult
  positionUpdate : Option PositionUpdateResult
  deriving DecidableEq, Repr

/-- Step 2 of `TradeManager.updateWithCandle`: the
`if (this.state.activePosition)` block. -/
def positionStep (tm : TradeManager) (candle : OHLCVCandle)
    (currentTime : Int) : TradeManager × Option PositionUpdateResult :=
  match tm.activePosition with
  | some pos => updateActivePosition tm pos candle currentTime
  | none => (tm, none)

/-- `TradeManager.updateWithCandle`: (1) check and execute pending orders,
(2) update the active position, (3) clean up expired orders, (4) recompute
equity and margin. -/
def updateWithCandle (tm : TradeManager) (candle : OHLCVCandle) :
    TradeManager × UpdateResult :=
  let currentTime := candle.time
  let po := processOrders tm tm.pendingOrders candle currentTime
  let tm1 : TradeManager := { po.1 with pendingOrders := po.2.1 }
  let pu := positionStep tm1 candle currentTime
  let tm3 := cleanupExpiredOrders pu.1 currentTime
  let tm4 := updateEquityAndMargin tm3 candle
  (tm4, { orderExecutions := po.2.2, positionUpdate := pu.2 })

/-- `TradeManager.canPlaceOrder`. -/
def canPlaceOrder (tm : TradeManager) : Bool :=
  tm.activePosition.isNone && decide (tm.freeMargin > 0)

/-- The `executedOrders` count of `TradeManager.getTradeStatistics`:
`pendingOrders.filter(o => o.status === 'EXECUTED').length`. -/
def countExecuted (orders : List PendingOrder) : Nat :=
  (orders.filter (fun o => decide (o.status = .EXECUTED))).length

/-- Folding a whole candle sequence through `updateWithCandle`, keeping only
the manager state (the per-candle results are discarded). -/
def runCandles (tm : TradeManager) (candles : List OHLCVCandle) : TradeManager :=
  candles.foldl (fun t c => (updateWithCandle t c).1) tm

end TradeManager

namespace SimulationEngine

/-- The oracle's decision field (`'TRADE' | 'NO_TRADE'`). -/
inductive Decision where
  | TRADE
  | NO_TRADE
  deriving DecidableEq, Repr

/-- The oracle's trade parameters (`tradeDetails`). -/
structure TradeDetails where
  type : PositionType
  entryPrice : ℚ
  stopLoss : ℚ
  takeProfit : ℚ
  lotSize : ℚ
  deriving DecidableEq, Repr

/-- Return value of `SimulationEngine.performAnalysisCycle`: success flag,
analysis id, optional decision and trade details, error message. -/
structure AnalysisResult where
  success : Bool
  analysisId : String
  decision : Option Decision
  tradeDetails : Option TradeDetails
  error : String
  deriving DecidableEq, Repr

/-- `SimulationEngine.determineOrderType`: a stop order in the direction of
the requested side. -/
def determineOrderType (tradeDetails : TradeDetails) : OrderType :=
  match tradeDetails.type with
  | .BUY => .BUY_STOP
  | .SELL => .SELL_STOP

/-- Placeholder candle used for out-of-range `getD` lookups; the loop only
reads candles at indices below the list length. -/
def defaultCandle : OHLCVCandle :=
  { time := 0, open_ := 0, high := 0, low := 0, close := 0,
    tick_volume := 0, real_volume := 0, spread := 0 }

/-- The mutable state of the `runBacktest` main loop: candle cursor, trade
manager, analysis counter, and the session's trade list, equity curve and
logs. -/
structure SimState where
  currentIndex : Nat
  tm : TradeManager
  analysisCount : Nat
  trades : List Trade
  equityCurve : List EquityPoint
  analysisLogs : List String
  errorLogs : List String

/-- One iteration of the `while (currentIndex < m15Candles.length)` loop of
`SimulationEngine.runBacktest`.  The external decision oracle
(`performAnalysisCycle`, which wraps data fetching, chart rendering and the
two-stage AI call) is abstracted as a function from the candle index the
cursor is on to its `AnalysisResult`; it is consulted exactly when
`tradeManager.canPlaceOrder()` holds, as in the source.  Returns the next
state and whether the oracle was consulted this iteration. -/
def loopStep (skipCandles : Nat) (oracle : Nat → AnalysisResult)
    (candles : List OHLCVCandle) (s : SimState) : SimState × Bool :=
  let currentCandle := candles.getD s.currentIndex defaultCandle
  let currentTime := currentCandle.time
  let u := s.tm.updateWithCandle currentCandle
  let tm1 := u.1
  let trades1 :=
    match u.2.positionUpdate with
    | some pu => if pu.closed then
        match pu.trade with
        | some t => s.trades ++ [t]
        | none => s.trades
      else s.trades
    | none => s.trades
  let curve1 :=
    match u.2.positionUpdate with
    | some pu => if pu.closed then
        match pu.trade with
        | some t => BacktestSessionManager.updateEquityCurve s.equityCurve t
        | none => s.equityCurve
      else s.equityCurve
    | none => s.equityCurve
  if tm1.canPlaceOrder then
    let analysisResult := oracle s.currentIndex
    let tm2 :=
      match analysisResult.success, analysisResult.decision, analysisResult.tradeDetails with
      | true, some .TRADE, some details =>
        (tm1.addPendingOrder (determineOrderType details) details.entryPrice
          details.stopLoss details.takeProfit details.lotSize
          analysisResult.analysisId currentTime).1
      | _, _, _ => tm1
    if analysisResult.success then
      let s1 : SimState :=
        { s with
          tm := tm2
          trades := trades1
          equityCurve := curve1
          analysisCount := s.analysisCount + 1
          analysisLogs := s.analysisLogs ++ [analysisResult.analysisId] }
      if analysisResult.decision = some .NO_TRADE then
        ({ s1 with currentIndex := s.currentIndex + skipCandles }, true)
      else
        ({ s1 with currentIndex := s.currentIndex + 1 }, true)
    else
      ({ s with
         tm := tm2
         trades := trades1
         equityCurve := curve1
         errorLogs := s.errorLogs ++ ["Analysis failed: " ++ analysisResult.error]
         currentIndex := s.currentIndex + 1 }, true)
  else
    ({ s with
       tm := tm1
       trades := trades1
       equityCurve := curve1
       currentIndex := s.currentIndex + 1 }, false)

/-- The main loop of `SimulationEngine.runBacktest`, run with explicit fuel
(the source loop terminates because validation enforces `skipCandles ≥ 1`;
fuel makes the recursion structural).  Returns the final state and the trace
of `(processed candle index, oracle consulted?)` pairs, in order. -/
def runLoop (skipCandles : Nat) (oracle : Nat → AnalysisResult)
    (candles : List OHLCVCandle) : Nat → SimState → SimState × List (Nat × Bool)
  | 0, s => (s, [])
  | fuel + 1, s =>
    if s.currentIndex < candles.length then
      let step := loopStep skipCandles oracle candles s
      let rest := runLoop skipCandles oracle candles fuel step.1
      (rest.1, (s.currentIndex, step.2) :: rest.2)
    else (s, [])

end SimulationEngine

/-! ### Concrete fixtures

Concrete states, orders, candles and trades used by witness and
counterexample theorems below. -/

/-- A trade record template; individual fixtures override the fields a
theorem cares about. -/
def sampleTrade : Trade :=
  { tradeId := 0
    sessionId := "s"
    type := .BUY
    entryPrice := 1
    exitPrice := 2
    stopLoss := 0
    takeProfit := 2
    lotSize := 1
    openedAt := 0
    closedAt := 1
    duration := 0
    pnl := 100
    pnlPercent := 1
    status := .WIN
    exitReason := .TAKE_PROFIT
    analysisId := "a"
    commission := 0
    swap := 0
    netPnl := 100 }

/-- A winning trade with net P&L `+100` (gross `100`, no costs). -/
def fixWinTrade : Trade := sampleTrade

/-- A losing trade: gross and net P&L `-40`. -/
def fixLossTrade : Trade :=
  { sampleTrade with pnl := -40, netPnl := -40, status := .LOSS }

/-- A breakeven trade: gross and net P&L `0`. -/
def fixBreakevenTrade : Trade :=
  { sampleTrade with pnl := 0, netPnl := 0, status := .BREAKEVEN }

/-- The seed equity point a session starts with (initial balance 10000). -/
def fixInitPoint : EquityPoint :=
  { timestamp := 0, balance := 10000, equity := 10000, drawdown := 0,
    drawdown_percent := 0 }

/-- A pending BUY_STOP order: trigger 100, stop 95, target 110, 1 lot,
expiring at t = 1000000. -/
def fixOrder : PendingOrder :=
  { orderId := 0
    type := .BUY_STOP
    price := 100
    stopLoss := 95
    takeProfit := 110
    lotSize := 1
    createdAt := 0
    expiresAt := 1000000
    status := .PENDING
    analysisId := "a" }

/-- A candle at t = 60000 whose range [94, 101] covers both the trigger
price 100 and the stop loss 95 of `fixOrder`. -/
def fixCandle : OHLCVCandle :=
  { time := 60000, open_ := 98, high := 101, low := 94, close := 96,
    tick_volume := 0, real_volume := 0, spread := 0 }

/-- A manager holding `fixOrder` as its only pending order and no open
position, balance 10000. -/
def fixTM : TradeManager :=
  { TradeManager.mkNew "s" "EURUSD" 10000 180 with
    pendingOrders := [fixOrder], nextId := 1 }

/-- An open BUY position used to exercise the single-position guard. -/
def fixPosition : ActivePosition :=
  { positionId := 5
    type := .BUY
    entryPrice := 100
    stopLoss := 95
    takeProfit := 110
    lotSize := 1
    openedAt := 0
    status := .OPEN
    analysisId := "a" }

/-- `fixTM` but with `fixPosition` already open. -/
def fixTMBusy : TradeManager :=
  { fixTM with activePosition := some fixPosition }

/-- A candle at t = 30000 that touches nothing: range [96, 98], below the
trigger 100, above the stop 95. -/
def fixQuietCandle : OHLCVCandle :=
  { time := 30000, open_ := 97, high := 98, low := 96, close := 97,
    tick_volume := 0, real_volume := 0, spread := 0 }

/-- An oracle that always succeeds with a NO_TRADE decision. -/
def fixOracleNoTrade : Nat → SimulationEngine.AnalysisResult :=
  fun _ => { success := true, analysisId := "a", decision := some .NO_TRADE,
             tradeDetails := none, error := "" }

/-- An oracle that always fails. -/
def fixOracleFail : Nat → SimulationEngine.AnalysisResult :=
  fun _ => { success := false, analysisId := "f", decision := none,
             tradeDetails := none, error := "boom" }

/-- A loop state at candle index 0 over a fresh manager. -/
def fixSimState : SimulationEngine.SimState :=
  { currentIndex := 0
    tm := TradeManager.mkNew "s" "EURUSD" 10000 180
    analysisCount := 0
    trades := []
    equityCurve := [fixInitPoint]
    analysisLogs := []
    errorLogs := [] }

/-- Ten copies of the quiet candle, the candle sequence for the loop
fixtures. -/
def fixCandles : List OHLCVCandle :=
  List.replicate 10 fixQuietCandle

/-! ## Theorems -/

/-- C3: for a BUY position with stop-loss `S < entry < T` take-profit, a
candle touching both levels (`low ≤ S` and `high ≥ T`) closes the position
at exit price `S` with reason STOP_LOSS, never at `T`; a SELL position
mirrors this with high/low swapped — stop-loss is always checked before
take-profit on the same candle. -/
theorem stop_loss_precedence (tm : TradeManager) (position : ActivePosition)
    (candle : OHLCVCandle) (t : Int) :
    (position.type = .BUY →
      position.stopLoss < position.entryPrice →
      position.entryPrice < position.takeProfit →
      candle.low ≤ position.stopLoss →
      candle.high ≥ position.takeProfit →
      ∃ r trade, (TradeManager.updateActivePosition tm position candle t).2 = some r ∧
        r.closed = true ∧ r.trade = some trade ∧
        trade.exitPrice = position.stopLoss ∧
        trade.exitReason = .STOP_LOSS) ∧
    (position.type = .SELL →
      position.takeProfit < position.entryPrice →
      position.entryPrice < position.stopLoss →
      candle.high ≥ position.stopLoss →
      candle.low ≤ position.takeProfit →
      ∃ r trade, (TradeManager.updateActivePosition tm position candle t).2 = some r ∧
        r.closed = true ∧ r.trade = some trade ∧
        trade.exitPrice = position.stopLoss ∧
        trade.exitReason = .STOP_LOSS) := by
  constructor
  · intro hty _ _ hlow _
    unfold TradeManager.updateActivePosition
    rw [if_pos ⟨hty, hlow⟩]
    exact ⟨_, _, rfl, rfl, rfl, rfl, rfl⟩
  · intro hty _ _ hhigh _
    unfold TradeManager.updateActivePosition
    rw [if_neg (by simp [hty]), if_pos ⟨hty, hhigh⟩]
    exact ⟨_, _, rfl, rfl, rfl, rfl, rfl⟩

/-- Witness for `stop_loss_precedence` at concrete inputs: a BUY position
(entry 100, stop 95, target 110) and a candle with range [94, 111]. -/
theorem stop_loss_precedence_witness :
    (fixPosition.type = .BUY ∧ fixPosition.stopLoss < fixPosition.entryPrice ∧
     fixPosition.entryPrice < fixPosition.takeProfit ∧
     (94 : ℚ) ≤ fixPosition.stopLoss ∧ (111 : ℚ) ≥ fixPosition.takeProfit) ∧
    ∃ r trade,
      (TradeManager.updateActivePosition fixTM fixPosition
        { fixCandle with low := 94, high := 111 } 60000).2 = some r ∧
      r.closed = true ∧ r.trade = some trade ∧
      trade.exitPrice = fixPosition.stopLoss ∧
      trade.exitReason = .STOP_LOSS :=
  ⟨⟨rfl, by norm_num [fixPosition], by norm_num [fixPosition],
    by norm_num [fixPosition], by norm_num [fixPosition]⟩,
   (stop_loss_precedence fixTM fixPosition
      { fixCandle with low := 94, high := 111 } 60000).1 rfl
     (by norm_num [fixPosition]) (by norm_num [fixPosition])
     (by norm_num [fixPosition, fixCandle]) (by norm_num [fixPosition, fixCandle])⟩

/-- C7: the `Trade` emitted by a position close has `pnlPercent` equal to
`netPnl` divided by the balance as it was before this trade's net effect
was applied, times 100, and its outcome status is derived from the sign of
the gross P&L via `determineTradeStatus` (not from the net P&L). -/
theorem close_position_accounting (tm : TradeManager)
    (position : ActivePosition) (exitPrice : ℚ) (t : Int) (reason : ExitReason) :
    ∃ trade,
      (TradeManager.closePosition tm position exitPrice t reason).2.trade = some trade ∧
      trade.pnlPercent = trade.netPnl / tm.balance * 100 ∧
      trade.status = TradeCalculator.determineTradeStatus trade.pnl ∧
      trade.pnl = TradeCalculator.calculatePnL position.type position.entryPrice
        exitPrice position.lotSize 1 ∧
      (TradeManager.closePosition tm position exitPrice t reason).1.balance =
        tm.balance + trade.netPnl := by
  refine ⟨_, rfl, ?_, rfl, rfl, ?_⟩
  · show TradeCalculator.calculatePnLPercent _ (tm.balance + _ - _) = _
    rw [add_sub_cancel_right]
    rfl
  · show (TradeManager.updateMarginRequirement _).balance = _
    cases h : ({ tm with
        balance := tm.balance +
          (TradeCalculator.calculatePnL position.type position.entryPrice exitPrice
            position.lotSize 1 - TradeManager.calculateCommission position.lotSize -
            TradeManager.calculateSwap position t)
        activePosition := none
        nextId := tm.nextId + 1 } : TradeManager).activePosition <;>
      simp [TradeManager.updateMarginRequirement, h]

/-- Helper: closed form of `updateEquityCurve` on a curve with a last
point. -/
theorem updateEquityCurve_eq (curve : List EquityPoint) (trade : Trade)
    (lastP : EquityPoint) (h : curve.getLast? = some lastP) :
    BacktestSessionManager.updateEquityCurve curve trade =
      curve ++ [{ timestamp := trade.closedAt
                  balance := lastP.balance + trade.netPnl
                  equity := lastP.balance + trade.netPnl
                  drawdown := listMaxQ (curve.map (·.balance)) -
                    (lastP.balance + trade.netPnl)
                  drawdown_percent :=
                    if listMaxQ (curve.map (·.balance)) > 0 then
                      (listMaxQ (curve.map (·.balance)) -
                          (lastP.balance + trade.netPnl)) /
                        listMaxQ (curve.map (·.balance)) * 100
                    else 0 }] := by
  unfold BacktestSessionManager.updateEquityCurve
  rw [h]

/-- C4 counterexample: appending a single winning trade (net P&L `+100`) to
a fresh curve seeded at balance 10000 produces an equity point whose
`drawdown` is `-100 < 0` and whose `drawdown_percent` is `-1` — the source
computes `peak - newBalance` with no floor at 0, so the claim that every
equity point has drawdown ≥ 0 is false. -/
theorem equity_drawdown_cex :
    ((BacktestSessionManager.updateEquityCurve [fixInitPoint] fixWinTrade).getD 1
        fixInitPoint).drawdown = -100 ∧
    ¬ (0 ≤ ((BacktestSessionManager.updateEquityCurve [fixInitPoint] fixWinTrade).getD 1
        fixInitPoint).drawdown) ∧
    ((BacktestSessionManager.updateEquityCurve [fixInitPoint] fixWinTrade).getD 1
        fixInitPoint).drawdown_percent = -1 := by
  rw [updateEquityCurve_eq [fixInitPoint] fixWinTrade fixInitPoint (by simp)]
  norm_num [fixInitPoint, fixWinTrade, sampleTrade, listMaxQ]

/-- Helper: the running maximum component of `maxDrawdownStep` never
decreases. -/
theorem maxDrawdownStep_fst_le (acc : ℚ × ℚ) (p : EquityPoint) :
    acc.1 ≤ (BacktestSessionManager.maxDrawdownStep acc p).1 :=
  le_max_left _ _

/-- Helper: one `maxDrawdownStep` keeps the running maximum at most 100 when
the point's balance is nonnegative. -/
theorem maxDrawdownStep_le_100 (acc : ℚ × ℚ) (p : EquityPoint)
    (h : acc.1 ≤ 100) (hb : 0 ≤ p.balance) :
    (BacktestSessionManager.maxDrawdownStep acc p).1 ≤ 100 := by
  unfold BacktestSessionManager.maxDrawdownStep
  refine max_le h ?_
  set peak := if p.balance > acc.2 then p.balance else acc.2 with hpeak
  by_cases hpk : peak > 0
  · rw [if_pos hpk]
    have hle : (peak - p.balance) / peak ≤ 1 :=
      (div_le_one hpk).mpr (by linarith)
    calc (peak - p.balance) / peak * 100 ≤ 1 * 100 :=
          mul_le_mul_of_nonneg_right hle (by norm_num)
      _ = 100 := by norm_num
  · rw [if_neg hpk]
    norm_num

/-- Helper: folding `maxDrawdownStep` preserves nonnegativity of the running
maximum. -/
theorem maxDrawdown_foldl_nonneg (l : List EquityPoint) :
    ∀ acc : ℚ × ℚ, 0 ≤ acc.1 →
      0 ≤ (l.foldl BacktestSessionManager.maxDrawdownStep acc).1 := by
  induction l with
  | nil => intro acc h; exact h
  | cons p rest ih =>
    intro acc h
    exact ih _ (le_trans h (maxDrawdownStep_fst_le acc p))

/-- Helper: folding `maxDrawdownStep` over points with nonnegative balances
keeps the running maximum at most 100. -/
theorem maxDrawdown_foldl_le_100 (l : List EquityPoint) :
    ∀ acc : ℚ × ℚ, acc.1 ≤ 100 → (∀ p ∈ l, 0 ≤ p.balance) →
      (l.foldl BacktestSessionManager.maxDrawdownStep acc).1 ≤ 100 := by
  induction l with
  | nil => intro acc h _; exact h
  | cons p rest ih =>
    intro acc h hb
    exact ih _ (maxDrawdownStep_le_100 acc p h (hb p (List.mem_cons_self p rest)))
      (fun q hq => hb q (List.mem_cons_of_mem p hq))

/-- C4 amended: the equity point appended by `updateEquityCurve` has
`drawdown = (running peak of the existing balances) − (new balance)` with no
floor at 0 — it is strictly negative whenever the trade lifts the balance
above the prior peak; `calculateMaxDrawdown`, by contrast, is always ≥ 0,
and is ≤ 100 whenever every balance on the curve is nonnegative. -/
theorem equity_drawdown_amended :
    (∀ (curve : List EquityPoint) (trade : Trade) (lastP : EquityPoint),
      curve.getLast? = some lastP →
      ∃ pt, (BacktestSessionManager.updateEquityCurve curve trade).getLast? = some pt ∧
        pt.balance = lastP.balance + trade.netPnl ∧
        pt.drawdown = listMaxQ (curve.map (·.balance)) - pt.balance ∧
        (listMaxQ (curve.map (·.balance)) < pt.balance → pt.drawdown < 0)) ∧
    (∀ curve, 0 ≤ BacktestSessionManager.calculateMaxDrawdown curve) ∧
    (∀ curve, (∀ p ∈ curve, 0 ≤ p.balance) →
      BacktestSessionManager.calculateMaxDrawdown curve ≤ 100) := by
  refine ⟨?_, ?_, ?_⟩
  · intro curve trade lastP h
    rw [updateEquityCurve_eq curve trade lastP h, List.getLast?_concat]
    exact ⟨_, rfl, rfl, rfl, fun hlt => sub_neg.mpr hlt⟩
  · intro curve
    cases curve with
    | nil => exact le_refl 0
    | cons first rest =>
      exact maxDrawdown_foldl_nonneg _ _ (le_refl 0)
  · intro curve hb
    cases curve with
    | nil => norm_num [BacktestSessionManager.calculateMaxDrawdown]
    | cons first rest =>
      exact maxDrawdown_foldl_le_100 _ _ (by norm_num) hb

/-- Witness for `equity_drawdown_amended` at concrete inputs: appending the
losing trade to the seeded curve, and both drawdown bounds on that curve. -/
theorem equity_drawdown_amended_witness :
    ([fixInitPoint].getLast? = some fixInitPoint) ∧
    (∃ pt, (BacktestSessionManager.updateEquityCurve [fixInitPoint]
        fixLossTrade).getLast? = some pt ∧
      pt.balance = fixInitPoint.balance + fixLossTrade.netPnl ∧
      pt.drawdown = listMaxQ ([fixInitPoint].map (·.balance)) - pt.balance ∧
      (listMaxQ ([fixInitPoint].map (·.balance)) < pt.balance → pt.drawdown < 0)) ∧
    (∀ p ∈ [fixInitPoint], 0 ≤ p.balance) ∧
    0 ≤ BacktestSessionManager.calculateMaxDrawdown [fixInitPoint] ∧
    BacktestSessionManager.calculateMaxDrawdown [fixInitPoint] ≤ 100 :=
  ⟨by simp,
   equity_drawdown_amended.1 [fixInitPoint] fixLossTrade fixInitPoint (by simp),
   by simp [fixInitPoint],
   equity_drawdown_amended.2.1 [fixInitPoint],
   equity_drawdown_amended.2.2 [fixInitPoint] (by simp [fixInitPoint])⟩

/-- C5 counterexample: on the trade sequence WIN, BREAKEVEN, WIN the two
streak implementations disagree — `TradeCalculator.calculateMetrics` reports
`maxConsecutiveWins = 2` because its loop has no BREAKEVEN branch and leaves
the running streak intact, while
`BacktestSessionManager.calculateConsecutiveWinsLosses` resets on the
BREAKEVEN and reports 1.  The claim that both implementations reset on
BREAKEVEN is therefore false. -/
theorem breakeven_reset_cex :
    (TradeCalculator.calculateMetrics
        [fixWinTrade, fixBreakevenTrade, fixWinTrade]).maxConsecutiveWins = 2 ∧
    BacktestSessionManager.calculateConsecutiveWinsLosses
        [fixWinTrade, fixBreakevenTrade, fixWinTrade] = (1, 0) := by
  refine ⟨?_, ?_⟩ <;> decide

/-- C5 amended: in `BacktestSessionManager.calculateConsecutiveWinsLosses` a
BREAKEVEN trade resets both running streak counters to 0 (a WIN right after
it starts a fresh streak of length 1), while in
`TradeCalculator.calculateMetrics` a BREAKEVEN leaves both running streak
counters unchanged (a WIN right after it extends the streak that was live
before the BREAKEVEN). -/
theorem breakeven_streak_amended (pre : List Trade) (t w : Trade)
    (ht : t.status = .BREAKEVEN) (hw : w.status = .WIN) :
    ((pre ++ [t, w]).foldl TradeCalculator.metricsStreakStep (0, 0, 0, 0) =
      (let r := pre.foldl TradeCalculator.metricsStreakStep (0, 0, 0, 0)
       (max r.1 (r.2.2.1 + 1), r.2.1, r.2.2.1 + 1, 0))) ∧
    (TradeCalculator.calculateMetrics (pre ++ [t, w])).maxConsecutiveWins =
      (let r := pre.foldl TradeCalculator.metricsStreakStep (0, 0, 0, 0)
       max r.1 (r.2.2.1 + 1)) ∧
    BacktestSessionManager.calculateConsecutiveWinsLosses (pre ++ [t, w]) =
      (let r := pre.foldl BacktestSessionManager.consecutiveStep (0, 0, 0, 0)
       (max r.1 1, r.2.1)) := by
  have hm : (pre ++ [t, w]).foldl TradeCalculator.metricsStreakStep (0, 0, 0, 0) =
      (let r := pre.foldl TradeCalculator.metricsStreakStep (0, 0, 0, 0)
       (max r.1 (r.2.2.1 + 1), r.2.1, r.2.2.1 + 1, 0)) := by
    rw [List.foldl_append]
    simp only [List.foldl_cons, List.foldl_nil, TradeCalculator.metricsStreakStep,
      ht, hw]
  refine ⟨hm, ?_, ?_⟩
  · have hne : ¬ (pre ++ [t, w]).length = 0 := by simp
    unfold TradeCalculator.calculateMetrics
    rw [if_neg hne]
    simpa using congrArg (fun q : Nat × Nat × Nat × Nat => q.1) hm
  · unfold BacktestSessionManager.calculateConsecutiveWinsLosses
    rw [List.foldl_append]
    simp only [List.foldl_cons, List.foldl_nil,
      BacktestSessionManager.consecutiveStep, ht, hw]

/-- Witness for `breakeven_streak_amended` at concrete inputs: the empty
prefix followed by a BREAKEVEN and a WIN. -/
theorem breakeven_streak_amended_witness :
    (fixBreakevenTrade.status = .BREAKEVEN ∧ fixWinTrade.status = .WIN) ∧
    (TradeCalculator.calculateMetrics
        [fixBreakevenTrade, fixWinTrade]).maxConsecutiveWins = 1 ∧
    BacktestSessionManager.calculateConsecutiveWinsLosses
        [fixBreakevenTrade, fixWinTrade] = (1, 0) :=
  ⟨⟨rfl, rfl⟩,
   (breakeven_streak_amended [] fixBreakevenTrade fixWinTrade rfl rfl).2.1,
   (breakeven_streak_amended [] fixBreakevenTrade fixWinTrade rfl rfl).2.2⟩

/-- Helper: a nonempty list of positive rationals has positive sum. -/
theorem sum_pos_of_forall_pos (l : List ℚ) (h : ∀ x ∈ l, 0 < x) (hne : l ≠ []) :
    0 < l.sum := by
  induction l with
  | nil => exact absurd rfl hne
  | cons x xs ih =>
    rw [List.sum_cons]
    rcases eq_or_ne xs [] with hxs | hxs
    · subst hxs
      simpa using h x (List.mem_cons_self x [])
    · exact add_pos (h x (List.mem_cons_self x xs))
        (ih (fun y hy => h y (List.mem_cons_of_mem x hy)) hxs)

/-- Helper: a nonempty list of negative rationals has negative sum. -/
theorem sum_neg_of_forall_neg (l : List ℚ) (h : ∀ x ∈ l, x < 0) (hne : l ≠ []) :
    l.sum < 0 := by
  induction l with
  | nil => exact absurd rfl hne
  | cons x xs ih =>
    rw [List.sum_cons]
    rcases eq_or_ne xs [] with hxs | hxs
    · subst hxs
      simpa using h x (List.mem_cons_self x [])
    · exact add_neg (h x (List.mem_cons_self x xs))
        (ih (fun y hy => h y (List.mem_cons_of_mem x hy)) hxs)

/-- Helper: a trade whose status field was derived via
`determineTradeStatus` and reads WIN has positive gross P&L. -/
theorem win_pnl_pos {t : Trade}
    (hwf : t.status = TradeCalculator.determineTradeStatus t.pnl)
    (h : t.status = .WIN) : 0 < t.pnl := by
  have hd : TradeCalculator.determineTradeStatus t.pnl = .WIN := by rw [← hwf, h]
  unfold TradeCalculator.determineTradeStatus at hd
  split_ifs at hd with h1 h2
  exact h1

/-- Helper: a trade whose status field was derived via
`determineTradeStatus` and reads LOSS has negative gross P&L. -/
theorem loss_pnl_neg {t : Trade}
    (hwf : t.status = TradeCalculator.determineTradeStatus t.pnl)
    (h : t.status = .LOSS) : t.pnl < 0 := by
  have hd : TradeCalculator.determineTradeStatus t.pnl = .LOSS := by rw [← hwf, h]
  unfold TradeCalculator.determineTradeStatus at hd
  split_ifs at hd with h1 h2
  exact h2

/-- Helper: closed form of the profit-factor field of `calculateMetrics` on
a nonempty trade list. -/
theorem calculateMetrics_profitFactor (trades : List Trade) (hne : trades ≠ []) :
    (TradeCalculator.calculateMetrics trades).profitFactor =
      (if |((trades.filter (fun t => decide (t.status = .LOSS))).map (·.pnl)).sum| > 0 then
        ProfitFactor.finite
          (((trades.filter (fun t => decide (t.status = .WIN))).map (·.pnl)).sum /
            |((trades.filter (fun t => decide (t.status = .LOSS))).map (·.pnl)).sum|)
      else if ((trades.filter (fun t => decide (t.status = .WIN))).map (·.pnl)).sum > 0 then
        ProfitFactor.infinity
      else ProfitFactor.finite 0) := by
  unfold TradeCalculator.calculateMetrics
  rw [if_neg (by simpa using hne)]

/-- C8: `calculateMetrics []` is the all-zero summary with profit factor
`finite 0` (not NaN, undefined or infinity); and on any nonempty trade list
whose outcome statuses were derived from the gross P&L sign (as every trade
emitted by `closePosition` is), the profit factor is gross win ÷ |gross
loss| when losing trades exist, the `infinity` sentinel when winning trades
exist but no losing ones, and `finite 0` when there are neither. -/
theorem metrics_empty_and_profit_factor :
    TradeCalculator.calculateMetrics [] =
      { totalTrades := 0, winningTrades := 0, losingTrades := 0, winRate := 0,
        profitFactor := .finite 0, averageWin := 0, averageLoss := 0,
        largestWin := 0, largestLoss := 0, maxConsecutiveWins := 0,
        maxConsecutiveLosses := 0, averageTradeDuration := 0, totalPnl := 0,
        totalCommission := 0, totalSwap := 0, netPnl := 0 } ∧
    ∀ trades : List Trade, trades ≠ [] →
      (∀ t ∈ trades, t.status = TradeCalculator.determineTradeStatus t.pnl) →
      ((trades.filter (fun t => decide (t.status = .LOSS)) ≠ [] →
        (TradeCalculator.calculateMetrics trades).profitFactor =
          .finite
            (((trades.filter (fun t => decide (t.status = .WIN))).map (·.pnl)).sum /
              |((trades.filter (fun t => decide (t.status = .LOSS))).map (·.pnl)).sum|)) ∧
       (trades.filter (fun t => decide (t.status = .WIN)) ≠ [] →
        trades.filter (fun t => decide (t.status = .LOSS)) = [] →
        (TradeCalculator.calculateMetrics trades).profitFactor = .infinity) ∧
       (trades.filter (fun t => decide (t.status = .WIN)) = [] →
        trades.filter (fun t => decide (t.status = .LOSS)) = [] →
        (TradeCalculator.calculateMetrics trades).profitFactor = .finite 0)) := by
  refine ⟨rfl, ?_⟩
  intro trades hne hwf
  have hwin_pos : ∀ x ∈ ((trades.filter (fun t => decide (t.status = .WIN))).map (·.pnl)),
      0 < x := by
    intro x hx
    obtain ⟨t, ht, rfl⟩ := List.mem_map.mp hx
    have hmem := List.mem_of_mem_filter ht
    have hst : t.status = .WIN := by
      have := List.of_mem_filter ht
      simpa using this
    exact win_pnl_pos (hwf t hmem) hst
  have hloss_neg : ∀ x ∈ ((trades.filter (fun t => decide (t.status = .LOSS))).map (·.pnl)),
      x < 0 := by
    intro x hx
    obtain ⟨t, ht, rfl⟩ := List.mem_map.mp hx
    have hmem := List.mem_of_mem_filter ht
    have hst : t.status = .LOSS := by
      have := List.of_mem_filter ht
      simpa using this
    exact loss_pnl_neg (hwf t hmem) hst
  rw [calculateMetrics_profitFactor trades hne]
  refine ⟨?_, ?_, ?_⟩
  · intro hlne
    have hsum : ((trades.filter (fun t => decide (t.status = .LOSS))).map (·.pnl)).sum < 0 :=
      sum_neg_of_forall_neg _ hloss_neg (by simpa using hlne)
    rw [if_pos (abs_pos.mpr (ne_of_lt hsum))]
  · intro hwne hle
    have h0 : ((trades.filter (fun t => decide (t.status = .LOSS))).map (·.pnl)).sum = 0 := by
      rw [hle]; rfl
    have hw : ((trades.filter (fun t => decide (t.status = .WIN))).map (·.pnl)).sum > 0 :=
      sum_pos_of_forall_pos _ hwin_pos (by simpa using hwne)
    rw [if_neg (by rw [h0]; simp), if_pos hw]
  · intro hwe hle
    have h0 : ((trades.filter (fun t => decide (t.status = .LOSS))).map (·.pnl)).sum = 0 := by
      rw [hle]; rfl
    have hw0 : ((trades.filter (fun t => decide (t.status = .WIN))).map (·.pnl)).sum = 0 := by
      rw [hwe]; rfl
    rw [if_neg (by rw [h0]; simp), if_neg (by rw [hw0]; simp)]

/-- Witness for `metrics_empty_and_profit_factor` at a concrete input: a
single winning trade and no losing trade yields the infinity sentinel, and
the empty list yields the all-zero record. -/
theorem metrics_profit_factor_witness :
    ([fixWinTrade] ≠ []) ∧
    (∀ t ∈ [fixWinTrade], t.status = TradeCalculator.determineTradeStatus t.pnl) ∧
    ([fixWinTrade].filter (fun t => decide (t.status = .WIN)) ≠ []) ∧
    ([fixWinTrade].filter (fun t => decide (t.status = .LOSS)) = []) ∧
    (TradeCalculator.calculateMetrics [fixWinTrade]).profitFactor = .infinity := by
  have hwf : ∀ t ∈ [fixWinTrade], t.status = TradeCalculator.determineTradeStatus t.pnl := by
    intro t ht
    rw [List.mem_singleton] at ht
    subst ht
    show TradeStatus.WIN = TradeCalculator.determineTradeStatus (100 : ℚ)
    rw [TradeCalculator.determineTradeStatus, if_pos (by norm_num)]
  refine ⟨by simp, hwf, by simp [fixWinTrade, sampleTrade], by simp [fixWinTrade, sampleTrade], ?_⟩
  exact ((metrics_empty_and_profit_factor.2 [fixWinTrade] (by simp) hwf).2.1
    (by simp [fixWinTrade, sampleTrade]) (by simp [fixWinTrade, sampleTrade]))

/-! ### Order/position state machine lemmas -/

/-- Helper: `closePosition` does not touch the pending-order list. -/
theorem closePosition_pendingOrders (tm : TradeManager) (position : ActivePosition)
    (exitPrice : ℚ) (t : Int) (reason : ExitReason) :
    (TradeManager.closePosition tm position exitPrice t reason).1.pendingOrders =
      tm.pendingOrders :=
  rfl

/-- Helper: `updateActivePosition` does not touch the pending-order list. -/
theorem updateActivePosition_pendingOrders (tm : TradeManager)
    (position : ActivePosition) (candle : OHLCVCandle) (t : Int) :
    (TradeManager.updateActivePosition tm position candle t).1.pendingOrders =
      tm.pendingOrders := by
  unfold TradeManager.updateActivePosition
  split_ifs <;> rfl

/-- Helper: `positionStep` does not touch the pending-order list. -/
theorem positionStep_pendingOrders (tm : TradeManager) (candle : OHLCVCandle)
    (t : Int) :
    (TradeManager.positionStep tm candle t).1.pendingOrders = tm.pendingOrders := by
  unfold TradeManager.positionStep
  cases h : tm.activePosition with
  | none => rfl
  | some pos => exact updateActivePosition_pendingOrders tm pos candle t

/-- Helper: the pending-order list after `updateWithCandle` is the
`processOrders` output passed through `cleanupOrder`. -/
theorem updateWithCandle_pendingOrders (tm : TradeManager) (candle : OHLCVCandle) :
    (tm.updateWithCandle candle).1.pendingOrders =
      ((TradeManager.processOrders tm tm.pendingOrders candle candle.time).2.1).map
        (TradeManager.cleanupOrder candle.time) := by
  show (TradeManager.updateEquityAndMargin _ _).pendingOrders = _
  unfold TradeManager.updateEquityAndMargin TradeManager.cleanupExpiredOrders
  dsimp only
  rw [positionStep_pendingOrders]

/-- Helper: the order-execution results of `updateWithCandle` are exactly
those of `processOrders`. -/
theorem updateWithCandle_orderExecutions (tm : TradeManager) (candle : OHLCVCandle) :
    (tm.updateWithCandle candle).2.orderExecutions =
      (TradeManager.processOrders tm tm.pendingOrders candle candle.time).2.2 :=
  rfl

/-- Helper: `countExecuted` on a cons. -/
theorem countExecuted_cons (o : PendingOrder) (l : List PendingOrder) :
    TradeManager.countExecuted (o :: l) =
      (if o.status = .EXECUTED then 1 else 0) + TradeManager.countExecuted l := by
  unfold TradeManager.countExecuted
  by_cases h : o.status = .EXECUTED
  · rw [List.filter_cons_of_pos (by simpa using h), if_pos h]
    simp [Nat.add_comm]
  · rw [List.filter_cons_of_neg (by simpa using h), if_neg h]
    simp

/-- Helper: `cleanupOrder` never produces an EXECUTED status that was not
already there. -/
theorem cleanupOrder_status_executed (t : Int) (o : PendingOrder) :
    ((TradeManager.cleanupOrder t o).status = .EXECUTED) ↔ (o.status = .EXECUTED) := by
  unfold TradeManager.cleanupOrder
  split_ifs with h
  · constructor
    · intro h'
      cases h'
    · intro h'
      rw [h.1] at h'
      cases h'
  · exact Iff.rfl

/-- Helper: `cleanupOrder` leaves an order that is not PENDING unchanged. -/
theorem cleanupOrder_of_not_pending (t : Int) (o : PendingOrder)
    (h : o.status ≠ .PENDING) : TradeManager.cleanupOrder t o = o := by
  unfold TradeManager.cleanupOrder
  rw [if_neg (fun hc => h hc.1)]

/-- Helper: `cleanupOrder` preserves the EXECUTED count. -/
theorem countExecuted_map_cleanup (t : Int) (l : List PendingOrder) :
    TradeManager.countExecuted (l.map (TradeManager.cleanupOrder t)) =
      TradeManager.countExecuted l := by
  induction l with
  | nil => rfl
  | cons o rest ih =>
    rw [List.map_cons, countExecuted_cons, countExecuted_cons, ih]
    by_cases h : o.status = .EXECUTED
    · rw [if_pos ((cleanupOrder_status_executed t o).mpr h), if_pos h]
    · rw [if_neg (fun hc => h ((cleanupOrder_status_executed t o).mp hc)), if_neg h]

/-- Helper: closed form of `checkOrderExecution` on an expired order. -/
theorem checkOrderExecution_expired (tm : TradeManager) (order : PendingOrder)
    (candle : OHLCVCandle) (t : Int) (h : t ≥ order.expiresAt) :
    TradeManager.checkOrderExecution tm order candle t =
      (tm, { order with status := .EXPIRED },
       { executed := false, error := some "Order expired" }) := by
  unfold TradeManager.checkOrderExecution
  rw [if_pos h]

/-- Helper: the manager produced by `executeOrder` has an open position. -/
theorem executeOrder_active (tm : TradeManager) (order : PendingOrder) (t : Int) :
    (TradeManager.executeOrder tm order t).1.activePosition.isSome = true :=
  rfl

/-- Helper: `processOrders` preserves the length of the order list. -/
theorem processOrders_length (candle : OHLCVCandle) (t : Int) :
    ∀ (orders : List PendingOrder) (tm : TradeManager),
      (TradeManager.processOrders tm orders candle t).2.1.length = orders.length := by
  intro orders
  induction orders with
  | nil => intro tm; rfl
  | cons order rest ih =>
    intro tm
    unfold TradeManager.processOrders
    by_cases h : order.status = .PENDING
    · rw [if_pos h]
      simp only [List.length_cons, ih]
    · rw [if_neg h]
      simp only [List.length_cons, ih]

/-- Helper: the joint inductive invariant of the `processOrders` loop — the
EXECUTED count grows by exactly the number of collected execution results,
at most one order executes per pass, and nothing at all executes (and the
position slot is untouched) when a position is already open at loop
entry. -/
theorem processOrders_spec (candle : OHLCVCandle) (t : Int) :
    ∀ (orders : List PendingOrder) (tm : TradeManager),
      (TradeManager.countExecuted (TradeManager.processOrders tm orders candle t).2.1 =
        TradeManager.countExecuted orders +
          (TradeManager.processOrders tm orders candle t).2.2.length) ∧
      ((TradeManager.processOrders tm orders candle t).2.2.length ≤ 1) ∧
      (tm.activePosition.isSome = true →
        (TradeManager.processOrders tm orders candle t).2.2 = [] ∧
        (TradeManager.processOrders tm orders candle t).1.activePosition =
          tm.activePosition) := by
  intro orders
  induction orders with
  | nil =>
    intro tm
    refine ⟨by simp [TradeManager.processOrders], by simp [TradeManager.processOrders],
      fun h => ⟨rfl, rfl⟩⟩
  | cons order rest ih =>
    intro tm
    unfold TradeManager.processOrders
    by_cases hp : order.status = .PENDING
    · rw [if_pos hp]
      by_cases hexp : t ≥ order.expiresAt
      · rw [checkOrderExecution_expired tm order candle t hexp]
        obtain ⟨ih1, ih2, ih3⟩ := ih tm
        refine ⟨?_, ?_, fun h => ⟨?_, ?_⟩⟩
        · simp only [countExecuted_cons, ih1, hp]
          try simp
          try omega
        · simpa using ih2
        · simpa using (ih3 h).1
        · simpa using (ih3 h).2
      · unfold TradeManager.checkOrderExecution
        rw [if_neg hexp]
        by_cases hpos : tm.activePosition.isSome = true
        · rw [if_pos hpos]
          obtain ⟨ih1, ih2, ih3⟩ := ih tm
          refine ⟨?_, ?_, fun h => ⟨?_, ?_⟩⟩
          · simp only [countExecuted_cons, ih1]
            try simp
            try omega
          · simpa using ih2
          · simpa using (ih3 h).1
          · simpa using (ih3 h).2
        · rw [if_neg hpos]
          by_cases htr : TradeManager.shouldExecute order candle = true
          · rw [if_pos htr]
            obtain ⟨ih1, ih2, ih3⟩ :=
              ih (TradeManager.executeOrder tm order t).1
            obtain ⟨hres, _⟩ := ih3 (executeOrder_active tm order t)
            have hst : (TradeManager.executeOrder tm order t).2.1.status =
                OrderStatus.EXECUTED := rfl
            have hex : (TradeManager.executeOrder tm order t).2.2.executed = true := rfl
            refine ⟨?_, ?_, fun h => absurd h (by simp [hpos])⟩
            · simp only [countExecuted_cons, ih1, hres, hst, hex, hp]
              try simp
              try omega
            · simp only [hres, hex]
              simp
          · rw [if_neg htr]
            obtain ⟨ih1, ih2, ih3⟩ := ih tm
            refine ⟨?_, ?_, fun h => ⟨?_, ?_⟩⟩
            · simp only [countExecuted_cons, ih1]
              try simp
              try omega
            · simpa using ih2
            · simpa using (ih3 h).1
            · simpa using (ih3 h).2
    · rw [if_neg hp]
      obtain ⟨ih1, ih2, ih3⟩ := ih tm
      refine ⟨?_, ?_, fun h => ⟨?_, ?_⟩⟩
      · simp only [countExecuted_cons, ih1]
        try simp
        try omega
      · simpa using ih2
      · simpa using (ih3 h).1
      · simpa using (ih3 h).2

/-- Helper: `getD` through a `map`, in range. -/
theorem getD_map_lt {α β : Type} (f : α → β) (l : List α) (i : Nat) (d : α)
    (d' : β) (h : i < l.length) :
    (l.map f).getD i d' = f (l.getD i d) := by
  rw [List.getD_eq_getElem?_getD, List.getD_eq_getElem?_getD, List.getElem?_map,
    List.getElem?_eq_getElem h]
  rfl

/-- Helper: `getD` out of range. -/
theorem getD_of_le {α : Type} (l : List α) (i : Nat) (d : α)
    (h : l.length ≤ i) : l.getD i d = d := by
  rw [List.getD_eq_getElem?_getD, List.getElem?_eq_none h]
  rfl

/-- Helper: positional behaviour of the `processOrders` loop — an order that
is not PENDING passes through untouched, and a PENDING order whose expiry
time has been reached comes out EXPIRED (only its status changes). -/
theorem processOrders_getD (candle : OHLCVCandle) (t : Int) :
    ∀ (orders : List PendingOrder) (tm : TradeManager) (i : Nat) (d : PendingOrder),
      ((orders.getD i d).status ≠ .PENDING →
        (TradeManager.processOrders tm orders candle t).2.1.getD i d =
          orders.getD i d) ∧
      (i < orders.length → (orders.getD i d).status = .PENDING →
        t ≥ (orders.getD i d).expiresAt →
        (TradeManager.processOrders tm orders candle t).2.1.getD i d =
          { orders.getD i d with status := .EXPIRED }) := by
  intro orders
  induction orders with
  | nil =>
    intro tm i d
    exact ⟨fun _ => rfl, fun h => absurd h (by simp)⟩
  | cons order rest ih =>
    intro tm i d
    unfold TradeManager.processOrders
    by_cases hp : order.status = .PENDING
    · rw [if_pos hp]
      cases i with
      | zero =>
        refine ⟨fun hns => absurd hp (by simpa using hns), fun _ hps hexp => ?_⟩
        rw [checkOrderExecution_expired tm order candle t (by simpa using hexp)]
        rfl
      | succ j =>
        refine ⟨fun hns => ?_, fun hlt hps hexp => ?_⟩
        · simpa using
            (ih (TradeManager.checkOrderExecution tm order candle t).1 j d).1
              (by simpa using hns)
        · simpa using
            (ih (TradeManager.checkOrderExecution tm order candle t).1 j d).2
              (by simpa using hlt) (by simpa using hps) (by simpa using hexp)
    · rw [if_neg hp]
      cases i with
      | zero =>
        exact ⟨fun _ => rfl, fun _ hps => absurd hps hp⟩
      | succ j =>
        refine ⟨fun hns => ?_, fun hlt hps hexp => ?_⟩
        · simpa using (ih tm j d).1 (by simpa using hns)
        · simpa using
            (ih tm j d).2 (by simpa using hlt) (by simpa using hps)
              (by simpa using hexp)

/-- C1: the trade manager holds at most one active position — in one
`updateWithCandle` pass at most one pending order executes; if a position is
already open when the candle arrives, no order executes at all (the order
loop runs before the position update, so the slot must have been freed by a
close on an earlier candle before any further order can execute); and the
EXECUTED count of the order book grows by exactly the number of reported
executions. -/
theorem single_active_position (tm : TradeManager) (candle : OHLCVCandle) :
    TradeManager.countExecuted (tm.updateWithCandle candle).1.pendingOrders =
      TradeManager.countExecuted tm.pendingOrders +
        (tm.updateWithCandle candle).2.orderExecutions.length ∧
    (tm.updateWithCandle candle).2.orderExecutions.length ≤ 1 ∧
    (tm.activePosition.isSome = true →
      (tm.updateWithCandle candle).2.orderExecutions = []) := by
  obtain ⟨h1, h2, h3⟩ := processOrders_spec candle candle.time tm.pendingOrders tm
  refine ⟨?_, ?_, fun h => ?_⟩
  · rw [updateWithCandle_pendingOrders, countExecuted_map_cleanup,
      updateWithCandle_orderExecutions, h1]
  · rw [updateWithCandle_orderExecutions]
    exact h2
  · rw [updateWithCandle_orderExecutions]
    exact (h3 h).1

/-- Witness for `single_active_position`: with a position already open
(`fixTMBusy`) and a pending order whose trigger the candle range covers, no
execution is reported. -/
theorem single_active_position_witness :
    fixTMBusy.activePosition.isSome = true ∧
    (fixTMBusy.updateWithCandle fixCandle).2.orderExecutions = [] :=
  ⟨rfl, (single_active_position fixTMBusy fixCandle).2.2 rfl⟩

/-- Helper: one `updateWithCandle` pass turns a PENDING order whose expiry
has been reached into an EXPIRED one, changing nothing else about it. -/
theorem updateWithCandle_expires (tm : TradeManager) (candle : OHLCVCandle)
    (i : Nat) (d : PendingOrder) (hlt : i < tm.pendingOrders.length)
    (hps : (tm.pendingOrders.getD i d).status = .PENDING)
    (hexp : candle.time ≥ (tm.pendingOrders.getD i d).expiresAt) :
    (tm.updateWithCandle candle).1.pendingOrders.getD i d =
      { tm.pendingOrders.getD i d with status := .EXPIRED } := by
  rw [updateWithCandle_pendingOrders]
  have hlt' : i < (TradeManager.processOrders tm tm.pendingOrders candle
      candle.time).2.1.length := by
    rw [processOrders_length]
    exact hlt
  rw [getD_map_lt _ _ _ d _ hlt']
  rw [(processOrders_getD candle candle.time tm.pendingOrders tm i d).2 hlt hps hexp]
  exact cleanupOrder_of_not_pending _ _ (by simp)

/-- Helper: an EXPIRED order is still EXPIRED after `updateWithCandle`. -/
theorem updateWithCandle_expired_stable (tm : TradeManager) (candle : OHLCVCandle)
    (i : Nat) (d : PendingOrder)
    (h : (tm.pendingOrders.getD i d).status = .EXPIRED) :
    ((tm.updateWithCandle candle).1.pendingOrders.getD i d).status = .EXPIRED := by
  rw [updateWithCandle_pendingOrders]
  by_cases hlt : i < tm.pendingOrders.length
  · have hlt' : i < (TradeManager.processOrders tm tm.pendingOrders candle
        candle.time).2.1.length := by
      rw [processOrders_length]
      exact hlt
    rw [getD_map_lt _ _ _ d _ hlt']
    rw [(processOrders_getD candle candle.time tm.pendingOrders tm i d).1
      (by rw [h]; intro hc; cases hc)]
    rw [cleanupOrder_of_not_pending _ _ (by rw [h]; intro hc; cases hc)]
    exact h
  · have hge : tm.pendingOrders.length ≤ i := Nat.le_of_not_lt hlt
    have hge' : ((TradeManager.processOrders tm tm.pendingOrders candle
        candle.time).2.1.map (TradeManager.cleanupOrder candle.time)).length ≤ i := by
      rw [List.length_map, processOrders_length]
      exact hge
    rw [getD_of_le _ _ _ hge']
    rw [getD_of_le _ _ _ hge] at h
    exact h

/-- Helper: an EXPIRED order stays EXPIRED across any further candle
sequence. -/
theorem runCandles_expired_stable (i : Nat) (d : PendingOrder) :
    ∀ (candles : List OHLCVCandle) (tm : TradeManager),
      (tm.pendingOrders.getD i d).status = .EXPIRED →
      ((TradeManager.runCandles tm candles).pendingOrders.getD i d).status =
        .EXPIRED := by
  intro candles
  induction candles with
  | nil => intro tm h; exact h
  | cons c cs ih =>
    intro tm h
    exact ih _ (updateWithCandle_expired_stable tm c i d h)

/-- C2: a PENDING order whose expiry time has been reached by the candle
time transitions to EXPIRED during that `updateWithCandle` pass (producing
no execution — its status is EXPIRED, not EXECUTED), and once EXPIRED it
stays EXPIRED through every further candle, whatever the prices. -/
theorem order_expiry (tm : TradeManager) (candle : OHLCVCandle)
    (candles : List OHLCVCandle) (i : Nat) (d : PendingOrder) :
    (i < tm.pendingOrders.length →
      (tm.pendingOrders.getD i d).status = .PENDING →
      candle.time ≥ (tm.pendingOrders.getD i d).expiresAt →
      (tm.updateWithCandle candle).1.pendingOrders.getD i d =
        { tm.pendingOrders.getD i d with status := .EXPIRED } ∧
      ((tm.updateWithCandle candle).1.pendingOrders.getD i d).status ≠ .EXECUTED) ∧
    ((tm.pendingOrders.getD i d).status = .EXPIRED →
      ((TradeManager.runCandles tm candles).pendingOrders.getD i d).status =
        .EXPIRED) := by
  constructor
  · intro hlt hps hexp
    have h := updateWithCandle_expires tm candle i d hlt hps hexp
    refine ⟨h, ?_⟩
    rw [h]
    intro hc
    cases hc
  · intro h
    exact runCandles_expired_stable i d candles tm h

/-- Witness for `order_expiry`: a pending order expiring at t = 1000 fed a
candle at t = 60000 comes out EXPIRED, and an already-EXPIRED order stays
EXPIRED over a further candle. -/
theorem order_expiry_witness :
    (0 < ({ fixTM with
        pendingOrders := [{ fixOrder with expiresAt := 1000 }] } :
          TradeManager).pendingOrders.length) ∧
    ((({ fixTM with
        pendingOrders := [{ fixOrder with expiresAt := 1000 }] } :
          TradeManager).updateWithCandle fixCandle).1.pendingOrders.getD 0 fixOrder =
      { fixOrder with expiresAt := 1000, status := .EXPIRED }) ∧
    ((TradeManager.runCandles
        { fixTM with pendingOrders := [{ fixOrder with status := .EXPIRED }] }
        [fixCandle]).pendingOrders.getD 0 fixOrder).status = .EXPIRED := by
  refine ⟨by simp, ?_, ?_⟩
  · exact ((order_expiry
      { fixTM with pendingOrders := [{ fixOrder with expiresAt := 1000 }] }
      fixCandle [] 0 fixOrder).1 (by simp) rfl (by show (60000 : Int) ≥ 1000; omega)).1
  · exact (order_expiry
      { fixTM with pendingOrders := [{ fixOrder with status := .EXPIRED }] }
      fixCandle [fixCandle] 0 fixOrder).2 rfl

/-- Helper: `updateWithCandle` written out as the composition of its four
steps. -/
theorem updateWithCandle_eq (tm : TradeManager) (candle : OHLCVCandle) :
    tm.updateWithCandle candle =
      (TradeManager.updateEquityAndMargin
        (TradeManager.cleanupExpiredOrders
          (TradeManager.positionStep
            { (TradeManager.processOrders tm tm.pendingOrders candle candle.time).1 with
              pendingOrders :=
                (TradeManager.processOrders tm tm.pendingOrders candle candle.time).2.1 }
            candle candle.time).1 candle.time) candle,
       { orderExecutions :=
           (TradeManager.processOrders tm tm.pendingOrders candle candle.time).2.2
         positionUpdate :=
           (TradeManager.positionStep
             { (TradeManager.processOrders tm tm.pendingOrders candle candle.time).1 with
               pendingOrders :=
                 (TradeManager.processOrders tm tm.pendingOrders candle candle.time).2.1 }
             candle candle.time).2 }) :=
  rfl

/-- Helper: `positionStep` with an open position runs
`updateActivePosition` on it. -/
theorem positionStep_some (tm : TradeManager) (candle : OHLCVCandle) (t : Int)
    (pos : ActivePosition) (h : tm.activePosition = some pos) :
    TradeManager.positionStep tm candle t =
      TradeManager.updateActivePosition tm pos candle t := by
  unfold TradeManager.positionStep
  rw [h]

/-- Helper: `cleanupExpiredOrders` does not touch the position slot. -/
theorem cleanupExpiredOrders_activePosition (tm : TradeManager) (t : Int) :
    (TradeManager.cleanupExpiredOrders tm t).activePosition = tm.activePosition :=
  rfl

/-- Helper: `updateEquityAndMargin` does not touch the position slot. -/
theorem updateEquityAndMargin_activePosition (tm : TradeManager)
    (candle : OHLCVCandle) :
    (TradeManager.updateEquityAndMargin tm candle).activePosition =
      tm.activePosition :=
  rfl

/-- Helper: `closePosition` frees the position slot. -/
theorem closePosition_activePosition (tm : TradeManager)
    (position : ActivePosition) (exitPrice : ℚ) (t : Int) (reason : ExitReason) :
    (TradeManager.closePosition tm position exitPrice t reason).1.activePosition =
      none :=
  rfl

/-- C9: within a single `updateWithCandle` call, a pending order that
triggers on the candle opens a position that is immediately checked against
the same candle's range — when the range also covers the new position's
stop-loss, the one call both reports the execution and closes the position,
emitting a trade whose open and close times both equal the candle time, with
duration 0. -/
theorem same_candle_execute_and_close (tm : TradeManager) (order : PendingOrder)
    (candle : OHLCVCandle)
    (hord : tm.pendingOrders = [order]) (hpos : tm.activePosition = none)
    (hst : order.status = .PENDING) (hexp : candle.time < order.expiresAt)
    (hty : order.type = .BUY_STOP) (htrig : candle.high ≥ order.price)
    (hsl : candle.low ≤ order.stopLoss) :
    ∃ r trade,
      (tm.updateWithCandle candle).2.orderExecutions.length = 1 ∧
      (tm.updateWithCandle candle).2.positionUpdate = some r ∧
      r.closed = true ∧ r.trade = some trade ∧
      trade.openedAt = candle.time ∧ trade.closedAt = candle.time ∧
      trade.duration = 0 ∧ trade.exitReason = .STOP_LOSS ∧
      (tm.updateWithCandle candle).1.activePosition = none := by
  have hnotexp : ¬ (candle.time ≥ order.expiresAt) := not_le.mpr hexp
  have hse : TradeManager.shouldExecute order candle = true := by
    unfold TradeManager.shouldExecute
    rw [hty]
    exact decide_eq_true htrig
  have hcheck : TradeManager.checkOrderExecution tm order candle candle.time =
      TradeManager.executeOrder tm order candle.time := by
    unfold TradeManager.checkOrderExecution
    rw [if_neg hnotexp, hpos]
    simp only [Option.isSome_none, Bool.false_eq_true, if_false]
    rw [if_pos hse]
  have hpo : TradeManager.processOrders tm [order] candle candle.time =
      ((TradeManager.executeOrder tm order candle.time).1,
       [(TradeManager.executeOrder tm order candle.time).2.1],
       [(TradeManager.executeOrder tm order candle.time).2.2]) := by
    unfold TradeManager.processOrders
    rw [if_pos hst, hcheck]
    rfl
  have hnp : (TradeManager.executeOrder tm order candle.time).1.activePosition =
      some { positionId := tm.nextId, type := .BUY, entryPrice := order.price,
             stopLoss := order.stopLoss, takeProfit := order.takeProfit,
             lotSize := order.lotSize, openedAt := candle.time, status := .OPEN,
             analysisId := order.analysisId } := by
    unfold TradeManager.executeOrder TradeManager.updateMarginRequirement
    rw [hty]
  rw [updateWithCandle_eq, hord, hpo]
  dsimp only
  have hstep := positionStep_some
    { (TradeManager.executeOrder tm order candle.time).1 with
      pendingOrders := [(TradeManager.executeOrder tm order candle.time).2.1] }
    candle candle.time
    { positionId := tm.nextId, type := .BUY, entryPrice := order.price,
      stopLoss := order.stopLoss, takeProfit := order.takeProfit,
      lotSize := order.lotSize, openedAt := candle.time, status := .OPEN,
      analysisId := order.analysisId }
    hnp
  rw [hstep]
  unfold TradeManager.updateActivePosition
  rw [if_pos ⟨rfl, hsl⟩]
  refine ⟨_, _, rfl, rfl, rfl, rfl, rfl, rfl, ?_, rfl, ?_⟩
  · show TradeCalculator.calculateDuration candle.time candle.time = 0
    unfold TradeCalculator.calculateDuration
    rw [sub_self]
    exact Int.zero_fdiv _
  · rw [updateEquityAndMargin_activePosition, cleanupExpiredOrders_activePosition]
    exact closePosition_activePosition
      { (TradeManager.executeOrder tm order candle.time).1 with
        pendingOrders := [(TradeManager.executeOrder tm order candle.time).2.1] }
      { positionId := tm.nextId, type := .BUY, entryPrice := order.price,
        stopLoss := order.stopLoss, takeProfit := order.takeProfit,
        lotSize := order.lotSize, openedAt := candle.time, status := .OPEN,
        analysisId := order.analysisId }
      order.stopLoss candle.time .STOP_LOSS

/-- Witness for `same_candle_execute_and_close`: `fixTM` holds the pending
BUY_STOP `fixOrder` (trigger 100, stop 95) and `fixCandle` has range
[94, 101] at t = 60000 — one call executes the order and closes the
resulting position at the stop, with duration 0. -/
theorem same_candle_execute_and_close_witness :
    (fixTM.pendingOrders = [fixOrder] ∧ fixTM.activePosition = none ∧
     fixOrder.status = .PENDING ∧ fixCandle.time < fixOrder.expiresAt ∧
     fixOrder.type = .BUY_STOP ∧ fixCandle.high ≥ fixOrder.price ∧
     fixCandle.low ≤ fixOrder.stopLoss) ∧
    ∃ r trade,
      (fixTM.updateWithCandle fixCandle).2.orderExecutions.length = 1 ∧
      (fixTM.updateWithCandle fixCandle).2.positionUpdate = some r ∧
      r.closed = true ∧ r.trade = some trade ∧
      trade.openedAt = fixCandle.time ∧ trade.closedAt = fixCandle.time ∧
      trade.duration = 0 ∧ trade.exitReason = .STOP_LOSS ∧
      (fixTM.updateWithCandle fixCandle).1.activePosition = none :=
  ⟨⟨rfl, rfl, rfl, by show (60000 : Int) < 1000000; omega, rfl,
    by show (101 : ℚ) ≥ 100; norm_num [fixCandle, fixOrder],
    by show (94 : ℚ) ≤ 95; norm_num [fixCandle, fixOrder]⟩,
   same_candle_execute_and_close fixTM fixOrder fixCandle rfl rfl rfl
     (by show (60000 : Int) < 1000000; omega) rfl
     (by show (101 : ℚ) ≥ 100; norm_num) (by show (94 : ℚ) ≤ 95; norm_num)⟩

/-! ### Simulation loop lemmas -/

/-- Helper: one loop iteration never moves the candle cursor backwards. -/
theorem loopStep_index_ge (skip : Nat) (oracle : Nat → SimulationEngine.AnalysisResult)
    (candles : List OHLCVCandle) (s : SimulationEngine.SimState) :
    s.currentIndex ≤ (SimulationEngine.loopStep skip oracle candles s).1.currentIndex := by
  unfold SimulationEngine.loopStep
  dsimp only
  split
  · split
    · split
      · exact Nat.le_add_right _ _
      · exact Nat.le_add_right _ _
    · exact Nat.le_add_right _ _
  · exact Nat.le_add_right _ _

/-- Helper: every candle index in the trace of `runLoop` is at least the
start state's cursor. -/
theorem runLoop_trace_ge (skip : Nat) (oracle : Nat → SimulationEngine.AnalysisResult)
    (candles : List OHLCVCandle) :
    ∀ (fuel : Nat) (s : SimulationEngine.SimState) (p : Nat × Bool),
      p ∈ (SimulationEngine.runLoop skip oracle candles fuel s).2 →
      s.currentIndex ≤ p.1 := by
  intro fuel
  induction fuel with
  | zero =>
    intro s p hp
    simp [SimulationEngine.runLoop] at hp
  | succ n ih =>
    intro s p hp
    unfold SimulationEngine.runLoop at hp
    by_cases hlt : s.currentIndex < candles.length
    · rw [if_pos hlt] at hp
      dsimp only at hp
      rw [List.mem_cons] at hp
      rcases hp with hp | hp
      · rw [hp]
      · exact le_trans (loopStep_index_ge skip oracle candles s) (ih _ p hp)
    · rw [if_neg hlt] at hp
      simp at hp

/-- Helper: a successful NO_TRADE analysis advances the cursor by exactly
`skipCandles` (the `continue` short-circuits the per-iteration `+1`) and
leaves the trade manager exactly as the current candle's update left it (no
order is placed). -/
theorem loopStep_no_trade (skip : Nat) (oracle : Nat → SimulationEngine.AnalysisResult)
    (candles : List OHLCVCandle) (s : SimulationEngine.SimState)
    (hcan : ((s.tm.updateWithCandle
        (candles.getD s.currentIndex SimulationEngine.defaultCandle)).1).canPlaceOrder = true)
    (hsucc : (oracle s.currentIndex).success = true)
    (hdec : (oracle s.currentIndex).decision = some .NO_TRADE) :
    (SimulationEngine.loopStep skip oracle candles s).1.currentIndex =
      s.currentIndex + skip ∧
    (SimulationEngine.loopStep skip oracle candles s).1.tm =
      (s.tm.updateWithCandle
        (candles.getD s.currentIndex SimulationEngine.defaultCandle)).1 := by
  unfold SimulationEngine.loopStep
  dsimp only
  rw [hcan, hsucc, hdec]
  rw [if_pos rfl, if_pos rfl, if_pos rfl]
  exact ⟨rfl, rfl⟩

/-- Helper: a failed analysis advances the cursor by exactly one candle. -/
theorem loopStep_failure (skip : Nat) (oracle : Nat → SimulationEngine.AnalysisResult)
    (candles : List OHLCVCandle) (s : SimulationEngine.SimState)
    (hcan : ((s.tm.updateWithCandle
        (candles.getD s.currentIndex SimulationEngine.defaultCandle)).1).canPlaceOrder = true)
    (hfail : (oracle s.currentIndex).success = false) :
    (SimulationEngine.loopStep skip oracle candles s).1.currentIndex =
      s.currentIndex + 1 := by
  unfold SimulationEngine.loopStep
  dsimp only
  rw [hcan, hfail]
  rw [if_pos rfl, if_neg (by simp)]

/-- Helper: the first iteration recorded by `runLoop` with fuel to spare is
the current cursor position. -/
theorem runLoop_head (skip : Nat) (oracle : Nat → SimulationEngine.AnalysisResult)
    (candles : List OHLCVCandle) (fuel : Nat) (s : SimulationEngine.SimState)
    (h : s.currentIndex < candles.length) :
    (SimulationEngine.runLoop skip oracle candles (fuel + 1) s).2 =
      (s.currentIndex, (SimulationEngine.loopStep skip oracle candles s).2) ::
        (SimulationEngine.runLoop skip oracle candles fuel
          (SimulationEngine.loopStep skip oracle candles s).1).2 := by
  have hstep : SimulationEngine.runLoop skip oracle candles (fuel + 1) s =
      if s.currentIndex < candles.length then
        (let step := SimulationEngine.loopStep skip oracle candles s
         let rest := SimulationEngine.runLoop skip oracle candles fuel step.1
         (rest.1, (s.currentIndex, step.2) :: rest.2))
      else (s, []) := rfl
  rw [hstep, if_pos h]

/-- C6: when the oracle is consulted (a fresh decision opportunity) and
returns a successful NO_TRADE decision at cursor `i`, the next state's
cursor is exactly `i + skipCandles`, and every candle index processed (hence
every index at which the oracle could be consulted) for the rest of the run
is at least `i + skipCandles` — no oracle call happens at any intermediate
skipped candle; when the analysis fails, the cursor instead advances by
exactly one. -/
theorem no_trade_skip_advance (skip : Nat)
    (oracle : Nat → SimulationEngine.AnalysisResult)
    (candles : List OHLCVCandle) (s : SimulationEngine.SimState)
    (hcan : ((s.tm.updateWithCandle
        (candles.getD s.currentIndex SimulationEngine.defaultCandle)).1).canPlaceOrder = true) :
    ((oracle s.currentIndex).success = true →
      (oracle s.currentIndex).decision = some .NO_TRADE →
      (SimulationEngine.loopStep skip oracle candles s).1.currentIndex =
        s.currentIndex + skip ∧
      ∀ fuel p, p ∈ (SimulationEngine.runLoop skip oracle candles fuel
          (SimulationEngine.loopStep skip oracle candles s).1).2 →
        s.currentIndex + skip ≤ p.1) ∧
    ((oracle s.currentIndex).success = false →
      (SimulationEngine.loopStep skip oracle candles s).1.currentIndex =
        s.currentIndex + 1) := by
  constructor
  · intro hsucc hdec
    obtain ⟨hidx, _⟩ := loopStep_no_trade skip oracle candles s hcan hsucc hdec
    refine ⟨hidx, fun fuel p hp => ?_⟩
    have := runLoop_trace_ge skip oracle candles fuel _ p hp
    rw [hidx] at this
    exact this
  · intro hfail
    exact loopStep_failure skip oracle candles s hcan hfail

/-- Witness for `no_trade_skip_advance`: a fresh state at cursor 0, an
always-NO_TRADE oracle and skip 3 advance the cursor to exactly 3; an
always-failing oracle advances it to 1. -/
theorem no_trade_skip_advance_witness :
    (((fixSimState.tm.updateWithCandle
        (fixCandles.getD 0 SimulationEngine.defaultCandle)).1).canPlaceOrder = true) ∧
    ((fixOracleNoTrade 0).success = true) ∧
    ((fixOracleNoTrade 0).decision = some .NO_TRADE) ∧
    (SimulationEngine.loopStep 3 fixOracleNoTrade fixCandles fixSimState).1.currentIndex =
      0 + 3 ∧
    ((fixOracleFail 0).success = false) ∧
    (SimulationEngine.loopStep 3 fixOracleFail fixCandles fixSimState).1.currentIndex =
      0 + 1 := by
  have hcan : ((fixSimState.tm.updateWithCandle
      (fixCandles.getD 0 SimulationEngine.defaultCandle)).1).canPlaceOrder = true := by
    show ((TradeManager.mkNew "s" "EURUSD" 10000 180).updateWithCandle
      fixQuietCandle).1.canPlaceOrder = true
    unfold TradeManager.updateWithCandle TradeManager.mkNew TradeManager.processOrders
      TradeManager.positionStep TradeManager.cleanupExpiredOrders
      TradeManager.updateEquityAndMargin TradeManager.canPlaceOrder
    norm_num
  exact ⟨hcan, rfl, rfl,
    ((no_trade_skip_advance 3 fixOracleNoTrade fixCandles fixSimState hcan).1 rfl rfl).1,
    rfl,
    (no_trade_skip_advance 3 fixOracleFail fixCandles fixSimState hcan).2 rfl⟩

/-- C10: the candles jumped over by a NO_TRADE skip are never fed to the
trade manager — the state after the skipping iteration carries exactly the
manager state produced by the current candle (no pending order triggered or
expired for the skipped bars, no stop/take-profit evaluated, balance,
equity and margin untouched), the cursor sits at `i + skipCandles`, all
later processed indices are at least `i + skipCandles`, and the very next
iteration processes candle `i + skipCandles`. -/
theorem no_trade_skip_frame (skip : Nat)
    (oracle : Nat → SimulationEngine.AnalysisResult)
    (candles : List OHLCVCandle) (s : SimulationEngine.SimState)
    (hcan : ((s.tm.updateWithCandle
        (candles.getD s.currentIndex SimulationEngine.defaultCandle)).1).canPlaceOrder = true)
    (hsucc : (oracle s.currentIndex).success = true)
    (hdec : (oracle s.currentIndex).decision = some .NO_TRADE) :
    (SimulationEngine.loopStep skip oracle candles s).1.tm =
      (s.tm.updateWithCandle
        (candles.getD s.currentIndex SimulationEngine.defaultCandle)).1 ∧
    (SimulationEngine.loopStep skip oracle candles s).1.currentIndex =
      s.currentIndex + skip ∧
    (∀ fuel p, p ∈ (SimulationEngine.runLoop skip oracle candles fuel
        (SimulationEngine.loopStep skip oracle candles s).1).2 →
      s.currentIndex + skip ≤ p.1) ∧
    (s.currentIndex + skip < candles.length → ∀ fuel,
      (SimulationEngine.runLoop skip oracle candles (fuel + 1)
          (SimulationEngine.loopStep skip oracle candles s).1).2 =
        (s.currentIndex + skip,
          (SimulationEngine.loopStep skip oracle candles
            (SimulationEngine.loopStep skip oracle candles s).1).2) ::
          (SimulationEngine.runLoop skip oracle candles fuel
            (SimulationEngine.loopStep skip oracle candles
              (SimulationEngine.loopStep skip oracle candles s).1).1).2) := by
  obtain ⟨hidx, htm⟩ := loopStep_no_trade skip oracle candles s hcan hsucc hdec
  refine ⟨htm, hidx, fun fuel p hp => ?_, fun hlt fuel => ?_⟩
  · have := runLoop_trace_ge skip oracle candles fuel _ p hp
    rw [hidx] at this
    exact this
  · rw [runLoop_head skip oracle candles fuel _ (by rw [hidx]; exact hlt), hidx]

/-- Witness for `no_trade_skip_frame` at the concrete fixtures: skip 3 from
cursor 0 on a 10-candle run — the post-iteration manager equals the
post-candle-0 manager and the cursor lands on 3. -/
theorem no_trade_skip_frame_witness :
    (((fixSimState.tm.updateWithCandle
        (fixCandles.getD 0 SimulationEngine.defaultCandle)).1).canPlaceOrder = true) ∧
    ((fixOracleNoTrade 0).success = true) ∧
    ((fixOracleNoTrade 0).decision = some .NO_TRADE) ∧
    (SimulationEngine.loopStep 3 fixOracleNoTrade fixCandles fixSimState).1.tm =
      (fixSimState.tm.updateWithCandle
        (fixCandles.getD 0 SimulationEngine.defaultCandle)).1 ∧
    (SimulationEngine.loopStep 3 fixOracleNoTrade fixCandles fixSimState).1.currentIndex =
      0 + 3 := by
  have hcan : ((fixSimState.tm.updateWithCandle
      (fixCandles.getD 0 SimulationEngine.defaultCandle)).1).canPlaceOrder = true := by
    show ((TradeManager.mkNew "s" "EURUSD" 10000 180).updateWithCandle
      fixQuietCandle).1.canPlaceOrder = true
    unfold TradeManager.updateWithCandle TradeManager.mkNew TradeManager.processOrders
      TradeManager.positionStep TradeManager.cleanupExpiredOrders
      TradeManager.updateEquityAndMargin TradeManager.canPlaceOrder
    norm_num
  have h := no_trade_skip_frame 3 fixOracleNoTrade fixCandles fixSimState hcan rfl rfl
  exact ⟨hcan, rfl, rfl, h.1, h.2.1⟩

end Backtest
